import Mathlib

/-
Verification of the buffer-construction core in
src/shared/ebm_native/DataFrameInteraction.cpp.

The embedding translates the four functions of that file
(ConstructGradients, ConstructInputData, DataFrameInteraction::Destruct,
DataFrameInteraction::Initialize) into executable Lean definitions.
Heap allocation is modelled explicitly: a heap is the list of live
allocation identifiers together with a counter of allocation requests,
and an environment supplies an allocation-success oracle (EbmMalloc may
fail on any request) and the external InitializeGradients routine.
Machine integers are modelled as Int and Nat with explicit power-of-two
bounds for the 64-bit index and storage types.
-/

namespace EbmNative

deriving instance DecidableEq for Except

/-- Width in bits of the platform index type, size_t, on the targeted
64-bit platform. -/
def sizeBits : Nat := 64

/-- Modelled from the spec: the storage integer type is the fixed-width
integer type used to persist bin indices (StorageDataType, defined
outside this source file); its width on the targeted build is 64 bits. -/
def storageBits : Nat := 64

/-- Modelled from the spec: `IsNumberConvertable<StorageDataType>(v)` is
the range predicate "value fits in the target integer type" for the
unsigned 64-bit storage type. -/
def isNumberConvertableStorage (v : Int) : Bool :=
  decide (0 ≤ v) && decide (v < 2 ^ storageBits)

/-- Modelled from the spec: `IsNumberConvertable<size_t>(v)` is the range
predicate "value fits in the platform index type". -/
def isNumberConvertableSize (v : Int) : Bool :=
  decide (0 ≤ v) && decide (v < 2 ^ sizeBits)

/-- Modelled from the spec: the target descriptor is an integer whose
sign encodes the task; a negative sentinel denotes regression, a
non-negative value denotes classification with that many classes. -/
def isClassification (runtimeLearningTypeOrCountTargetClasses : Int) : Bool :=
  decide (0 ≤ runtimeLearningTypeOrCountTargetClasses)

/-- Modelled from the spec: vector length is 1 for regression or binary
classification and equal to the class count otherwise. -/
def getVectorLength (runtimeLearningTypeOrCountTargetClasses : Int) : Nat :=
  if runtimeLearningTypeOrCountTargetClasses ≤ 2 then 1
  else runtimeLearningTypeOrCountTargetClasses.toNat

/-- Modelled from the spec: `IsMultiplyError(x, y)` holds when the
product does not fit in the platform index type. -/
def isMultiplyError (x y : Nat) : Bool :=
  decide (2 ^ sizeBits ≤ x * y)

/-- Error taxonomy of the spec; each constructor corresponds to one
distinct failure path (one distinct error log line) in the source. -/
inductive ErrKind
  | SizeOverflow
  | AllocationFailure
  | NegativeLabel
  | LabelOverflow
  | LabelOutOfRange
  | NegativeBinIndex
  | BinIndexOverflow
  | BinIndexOutOfRange
  | GradientInitFailed
  deriving DecidableEq

/-- The heap model: the list of live allocation identifiers (most recent
first) and the number of allocation requests made so far.  A fresh
allocation pushes its identifier on the front; free erases it. -/
structure Heap where
  live : List Nat
  next : Nat
  deriving DecidableEq

/-- Environment of external collaborators: the allocation oracle (the
n-th allocation request succeeds or reports out-of-memory) and the
external InitializeGradients routine, which either fails or produces the
gradient values it writes into the freshly allocated buffer. -/
structure Env where
  allocOk : Nat → Bool
  gradientFill : Int → Nat → List Int → List Rat → Option (List Rat)

/-- Modelled from the spec: EbmMalloc either returns a fresh buffer or
reports allocation failure, as decided by the oracle. -/
def Heap.alloc (h : Heap) (env : Env) : Option Nat × Heap :=
  if env.allocOk h.next then (some h.next, ⟨h.next :: h.live, h.next + 1⟩)
  else (none, ⟨h.live, h.next + 1⟩)

/-- Releasing one allocation: its identifier stops being live. -/
def Heap.free (h : Heap) (id : Nat) : Heap :=
  ⟨h.live.erase id, h.next⟩

/-- Modelled from the spec: the feature descriptor exposes a source
column offset (GetIndexFeatureAtomicData) and a declared bin count
(GetCountBins). -/
structure FeatureAtomic where
  indexFeatureAtomicData : Nat
  countBins : Nat
  deriving DecidableEq

/-- The contiguous block of `cSamples` raw values that the source reads
for a feature: `aBinnedData[offset * cSamples + i]` for `i < cSamples`. -/
def column (aBinnedData : List Int) (offset cSamples : Nat) : List Int :=
  (aBinnedData.drop (offset * cSamples)).take cSamples

/-- The per-value check sequence of the inner loop of ConstructInputData
(lines 103-121 of the source): negative, storage-type convertibility,
index-type convertibility, then the bin-count range check; on success
the value is narrowed and stored. -/
def checkBinValue (countBins : Nat) (inputData : Int) : Except ErrKind Nat :=
  if inputData < 0 then Except.error ErrKind.NegativeBinIndex
  else if ¬ isNumberConvertableStorage inputData then Except.error ErrKind.BinIndexOverflow
  else if ¬ isNumberConvertableSize inputData then Except.error ErrKind.BinIndexOverflow
  else if countBins ≤ inputData.toNat then Except.error ErrKind.BinIndexOutOfRange
  else Except.ok inputData.toNat

/-- The inner do-while of ConstructInputData: validate and narrow each
raw value of one feature column in order, stopping at the first failing
value. -/
def fillFeature (countBins : Nat) : List Int → Except ErrKind (List Nat)
  | [] => Except.ok []
  | v :: rest =>
    match checkBinValue countBins v with
    | Except.error e => Except.error e
    | Except.ok n =>
      match fillFeature countBins rest with
      | Except.error e => Except.error e
      | Except.ok ns => Except.ok (n :: ns)

/-- The free_all rollback loop of ConstructInputData (lines 132-136):
release the per-feature buffers recorded so far, most recent first.
Also reused to model the inner-buffer loop of Destruct. -/
def freeAcc (acc : List (Nat × List Nat)) (h : Heap) : Heap :=
  match acc with
  | [] => h
  | p :: rest => freeAcc rest (Heap.free h p.1)

/-- The outer do-while of ConstructInputData (lines 91-127): per feature,
allocate an inner buffer, fill it from the column of that feature, and on any
failure release every inner buffer allocated so far (the in-progress one
included) plus the outer array before returning the failure.  `acc`
holds the buffers committed so far, most recent first. -/
def constructInputDataLoop (env : Env) (cSamples : Nat) (aBinnedData : List Int)
    (outerId : Nat) :
    List FeatureAtomic → List (Nat × List Nat) → Heap →
    Except ErrKind (List (Nat × List Nat)) × Heap
  | [], acc, h => (Except.ok acc.reverse, h)
  | fa :: rest, acc, h =>
    match Heap.alloc h env with
    | (none, h1) =>
      (Except.error ErrKind.AllocationFailure, Heap.free (freeAcc acc h1) outerId)
    | (some id, h1) =>
      match fillFeature fa.countBins (column aBinnedData fa.indexFeatureAtomicData cSamples) with
      | Except.error e =>
        (Except.error e, Heap.free (freeAcc ((id, []) :: acc) h1) outerId)
      | Except.ok col =>
        constructInputDataLoop env cSamples aBinnedData outerId rest ((id, col) :: acc) h1

/-- ConstructInputData (lines 69-139 of the source): allocate the outer
array of per-feature buffer pointers, then run the per-feature loop; an
outer allocation failure returns with nothing allocated. -/
def ConstructInputData (env : Env) (cFeatures : Nat)
    (aFeatureAtomics : List FeatureAtomic) (cSamples : Nat)
    (aBinnedData : List Int) (h : Heap) :
    Except ErrKind (Nat × List (Nat × List Nat)) × Heap :=
  match Heap.alloc h env with
  | (none, h1) => (Except.error ErrKind.AllocationFailure, h1)
  | (some outerId, h1) =>
    match constructInputDataLoop env cSamples aBinnedData outerId
        (aFeatureAtomics.take cFeatures) [] h1 with
    | (Except.error e, h2) => (Except.error e, h2)
    | (Except.ok cols, h2) => (Except.ok (outerId, cols), h2)

/-- ConstructGradients (lines 24-67 of the source): check the element
count for multiplication overflow before allocating, allocate the flat
gradient buffer, delegate the fill to the external routine, and free the
buffer again if that routine fails. -/
def ConstructGradients (env : Env) (cSamples : Nat) (aTargetData : List Int)
    (aPredictorScores : List Rat)
    (runtimeLearningTypeOrCountTargetClasses : Int) (h : Heap) :
    Except ErrKind (Nat × List Rat) × Heap :=
  let cVectorLength := getVectorLength runtimeLearningTypeOrCountTargetClasses
  if isMultiplyError cSamples cVectorLength then (Except.error ErrKind.SizeOverflow, h)
  else
    match Heap.alloc h env with
    | (none, h1) => (Except.error ErrKind.AllocationFailure, h1)
    | (some id, h1) =>
      match env.gradientFill runtimeLearningTypeOrCountTargetClasses cSamples
          aTargetData aPredictorScores with
      | none => (Except.error ErrKind.GradientInitFailed, Heap.free h1 id)
      | some grads => (Except.ok (id, grads), h1)

/-- The per-element target check sequence of Initialize (lines 191-208
of the source): negative, storage-type convertibility, index-type
convertibility, then the class-count range check. -/
def checkTargetValue (countTargetClasses : Nat) (data : Int) : Except ErrKind Unit :=
  if data < 0 then Except.error ErrKind.NegativeLabel
  else if ¬ isNumberConvertableStorage data then Except.error ErrKind.LabelOverflow
  else if ¬ isNumberConvertableSize data then Except.error ErrKind.LabelOverflow
  else if countTargetClasses ≤ data.toNat then Except.error ErrKind.LabelOutOfRange
  else Except.ok ()

/-- The target-validation do-while of Initialize (lines 190-210): check
every target element in order, stopping at the first violation. -/
def validateTargets (countTargetClasses : Nat) : List Int → Except ErrKind Unit
  | [] => Except.ok ()
  | v :: rest =>
    match checkTargetValue countTargetClasses v with
    | Except.error e => Except.error e
    | Except.ok _ => validateTargets countTargetClasses rest

/-- The object: the two owned buffers (identifier plus committed
contents) and the scalar metadata, mirroring the four data members of
DataFrameInteraction. -/
structure DataFrameInteraction where
  m_aGradients : Option (Nat × List Rat)
  m_aaInputData : Option (Nat × List (Nat × List Nat))
  m_cSamples : Nat
  m_cFeatureAtomics : Nat
  deriving DecidableEq

/-- The zero-initialized state the object starts in. -/
def emptyFrame : DataFrameInteraction := ⟨none, none, 0, 0⟩

/-- DataFrameInteraction::Destruct (lines 143-160 of the source): free
the gradient buffer (a no-op when it was never set) and, when the input
array is present, free every inner buffer and then the outer array. -/
def DataFrameInteraction.Destruct (st : DataFrameInteraction) (h : Heap) : Heap :=
  let h1 := match st.m_aGradients with
    | none => h
    | some g => Heap.free h g.1
  match st.m_aaInputData with
  | none => h1
  | some inp => Heap.free (freeAcc inp.2 h1) inp.1

/-- DataFrameInteraction::Initialize (lines 163-236 of the source): when
`cSamples` is non-zero, validate the targets (classification only),
build the gradient buffer, build the binned-input buffers when features
are present (freeing the gradient buffer if that fails), and commit; an
error at any phase returns with the object unchanged.  When `cSamples`
is zero everything is skipped and only `m_cFeatureAtomics` is recorded. -/
def DataFrameInteraction.Initialize (env : Env) (st : DataFrameInteraction)
    (cFeatureAtomics : Nat) (aFeatureAtomics : List FeatureAtomic)
    (cSamples : Nat) (aBinnedData : List Int) (aTargetData : List Int)
    (aPredictorScores : List Rat)
    (runtimeLearningTypeOrCountTargetClasses : Int) (h : Heap) :
    Except ErrKind Unit × DataFrameInteraction × Heap :=
  if cSamples ≠ 0 then
    match (if isClassification runtimeLearningTypeOrCountTargetClasses then
             validateTargets runtimeLearningTypeOrCountTargetClasses.toNat
               (aTargetData.take cSamples)
           else Except.ok ()) with
    | Except.error e => (Except.error e, st, h)
    | Except.ok _ =>
      match ConstructGradients env cSamples aTargetData aPredictorScores
          runtimeLearningTypeOrCountTargetClasses h with
      | (Except.error e, h1) => (Except.error e, st, h1)
      | (Except.ok g, h1) =>
        if cFeatureAtomics ≠ 0 then
          match ConstructInputData env cFeatureAtomics aFeatureAtomics cSamples
              aBinnedData h1 with
          | (Except.error e, h2) => (Except.error e, st, Heap.free h2 g.1)
          | (Except.ok inp, h2) =>
            (Except.ok (), ⟨some g, some inp, cSamples, cFeatureAtomics⟩, h2)
        else (Except.ok (), ⟨some g, st.m_aaInputData, cSamples, cFeatureAtomics⟩, h1)
  else (Except.ok (), ⟨st.m_aGradients, st.m_aaInputData, st.m_cSamples, cFeatureAtomics⟩, h)

/-- A concrete environment in which every allocation succeeds and the
external gradient routine fills the buffer with zeros. -/
def envAll : Env :=
  ⟨fun _ => true, fun rt cS _ _ => some (List.replicate (cS * getVectorLength rt) 0)⟩

/-- A concrete environment in which every allocation succeeds but the
external gradient routine always reports failure. -/
def envNoGrad : Env :=
  ⟨fun _ => true, fun _ _ _ _ => none⟩

/-! Helper lemmas about the heap model. -/

lemma freeAcc_append (acc : List (Nat × List Nat)) (tail : List Nat) (n : Nat) :
    freeAcc acc ⟨acc.map Prod.fst ++ tail, n⟩ = ⟨tail, n⟩ := by
  induction acc generalizing tail with
  | nil => rfl
  | cons p rest ih =>
    simp only [freeAcc, List.map_cons, List.cons_append, Heap.free, List.erase_cons_head]
    exact ih tail

/-! Helper lemmas about the per-value bin checks. -/

lemma checkBinValue_ok (c : Nat) (v : Int) (h0 : 0 ≤ v) (h1 : v.toNat < c)
    (hc : c ≤ 2 ^ sizeBits) : checkBinValue c v = Except.ok v.toNat := by
  have hv : v < 2 ^ sizeBits := by
    have : (c : Int) ≤ 2 ^ sizeBits := by exact_mod_cast hc
    omega
  simp only [checkBinValue, isNumberConvertableStorage, isNumberConvertableSize,
    storageBits, sizeBits] at *
  rw [if_neg (by omega), if_neg (by simp; omega), if_neg (by simp; omega), if_neg (by omega)]

lemma checkBinValue_ok_inv {c : Nat} {v : Int} {n : Nat}
    (h : checkBinValue c v = Except.ok n) : 0 ≤ v ∧ n = v.toNat ∧ v.toNat < c := by
  unfold checkBinValue at h
  split_ifs at h with h1 h2 h3 h4 <;> simp_all
  omega

lemma checkBinValue_error_kinds {c : Nat} {v : Int} {e : ErrKind}
    (h : checkBinValue c v = Except.error e) :
    e = ErrKind.NegativeBinIndex ∨ e = ErrKind.BinIndexOverflow ∨
      e = ErrKind.BinIndexOutOfRange := by
  unfold checkBinValue at h
  split_ifs at h <;> simp_all

lemma checkBinValue_at_countBins (c : Nat) (hc : c < 2 ^ sizeBits) :
    checkBinValue c (c : Int) = Except.error ErrKind.BinIndexOutOfRange := by
  have hv : (c : Int) < 2 ^ sizeBits := by
    simp only [sizeBits] at *
    omega
  simp only [checkBinValue, isNumberConvertableStorage, isNumberConvertableSize,
    storageBits, sizeBits] at *
  rw [if_neg (by omega), if_neg (by simp; omega), if_neg (by simp; omega),
    if_pos (by omega)]

/-! Helper lemmas about filling one feature column. -/

lemma fillFeature_ok_map {c : Nat} : ∀ {vals : List Int} {ns : List Nat},
    fillFeature c vals = Except.ok ns → ns = vals.map Int.toNat
  | [], ns, h => by simpa [fillFeature] using h.symm
  | v :: rest, ns, h => by
    unfold fillFeature at h
    rcases hv : checkBinValue c v with e | n
    · rw [hv] at h; cases h
    · rw [hv] at h
      rcases hr : fillFeature c rest with e | ms
      · rw [hr] at h; cases h
      · rw [hr] at h
        cases h
        have := fillFeature_ok_map hr
        have hn := checkBinValue_ok_inv hv
        simp [this, hn.2.1]

lemma fillFeature_ok_of_valid {c : Nat} (hc : c ≤ 2 ^ sizeBits) :
    ∀ vals : List Int, (∀ v ∈ vals, 0 ≤ v ∧ v.toNat < c) →
    fillFeature c vals = Except.ok (vals.map Int.toNat)
  | [], _ => rfl
  | v :: rest, hvals => by
    have hv := hvals v (by simp)
    have hrest := fillFeature_ok_of_valid hc rest (fun u hu => hvals u (by simp [hu]))
    unfold fillFeature
    rw [checkBinValue_ok c v hv.1 hv.2 hc, hrest]
    simp

lemma fillFeature_first_error {c : Nat} (hc : c ≤ 2 ^ sizeBits) :
    ∀ (pre : List Int) (v : Int) (rest : List Int) (e : ErrKind),
    (∀ u ∈ pre, 0 ≤ u ∧ u.toNat < c) → checkBinValue c v = Except.error e →
    fillFeature c (pre ++ v :: rest) = Except.error e
  | [], v, rest, e, _, hv => by
    rw [List.nil_append]
    unfold fillFeature
    rw [hv]
  | u :: pre, v, rest, e, hpre, hv => by
    have hu := hpre u (by simp)
    have ih := fillFeature_first_error hc pre v rest e (fun w hw => hpre w (by simp [hw])) hv
    rw [List.cons_append]
    unfold fillFeature
    rw [checkBinValue_ok c u hu.1 hu.2 hc, ih]

lemma fillFeature_error_kinds {c : Nat} : ∀ {vals : List Int} {e : ErrKind},
    fillFeature c vals = Except.error e →
    e = ErrKind.NegativeBinIndex ∨ e = ErrKind.BinIndexOverflow ∨
      e = ErrKind.BinIndexOutOfRange
  | [], e, h => by simp [fillFeature] at h
  | v :: rest, e, h => by
    unfold fillFeature at h
    rcases hv : checkBinValue c v with e2 | n
    · rw [hv] at h
      cases h
      exact checkBinValue_error_kinds hv
    · rw [hv] at h
      rcases hr : fillFeature c rest with e2 | ms
      · rw [hr] at h
        cases h
        exact fillFeature_error_kinds hr
      · rw [hr] at h; cases h

/-! Helper lemmas about the per-element target checks. -/

lemma checkTargetValue_neg (K : Nat) (v : Int) (h : v < 0) :
    checkTargetValue K v = Except.error ErrKind.NegativeLabel := by
  simp [checkTargetValue, h]

lemma checkTargetValue_overflow (K : Nat) (v : Int) (h0 : 0 ≤ v)
    (h1 : (2 : Int) ^ sizeBits ≤ v) :
    checkTargetValue K v = Except.error ErrKind.LabelOverflow := by
  simp only [checkTargetValue, isNumberConvertableStorage, storageBits, sizeBits] at *
  rw [if_neg (by omega), if_pos (by simp; omega)]

lemma checkTargetValue_range (K : Nat) (v : Int) (h0 : 0 ≤ v)
    (h1 : v < 2 ^ sizeBits) (h2 : K ≤ v.toNat) :
    checkTargetValue K v = Except.error ErrKind.LabelOutOfRange := by
  simp only [checkTargetValue, isNumberConvertableStorage, isNumberConvertableSize,
    storageBits, sizeBits] at *
  rw [if_neg (by omega), if_neg (by simp; omega), if_neg (by simp; omega),
    if_pos (by omega)]

lemma checkTargetValue_ok_iff (K : Nat) (v : Int) :
    checkTargetValue K v = Except.ok () ↔ 0 ≤ v ∧ v < 2 ^ sizeBits ∧ v.toNat < K := by
  unfold checkTargetValue isNumberConvertableStorage isNumberConvertableSize
    storageBits sizeBits
  split_ifs with h1 h2 h3 h4 <;> simp_all <;> omega

lemma checkTargetValue_error_of_ge (K : Nat) (v : Int) (h : (K : Int) ≤ v) :
    ∃ e, checkTargetValue K v = Except.error e := by
  by_cases hv : v < 2 ^ sizeBits
  · refine ⟨ErrKind.LabelOutOfRange, checkTargetValue_range K v ?_ hv ?_⟩ <;>
      simp only [sizeBits] at * <;> omega
  · refine ⟨ErrKind.LabelOverflow, checkTargetValue_overflow K v ?_ ?_⟩ <;>
      simp only [sizeBits] at * <;> omega

/-! Helper lemmas about the target-validation loop. -/

lemma validateTargets_ok_of_valid (K : Nat) :
    ∀ l : List Int, (∀ v ∈ l, checkTargetValue K v = Except.ok ()) →
    validateTargets K l = Except.ok ()
  | [], _ => rfl
  | v :: rest, hl => by
    unfold validateTargets
    rw [hl v (by simp)]
    exact validateTargets_ok_of_valid K rest (fun u hu => hl u (by simp [hu]))

lemma validateTargets_first_error (K : Nat) :
    ∀ (pre : List Int) (v : Int) (rest : List Int) (e : ErrKind),
    (∀ u ∈ pre, checkTargetValue K u = Except.ok ()) →
    checkTargetValue K v = Except.error e →
    validateTargets K (pre ++ v :: rest) = Except.error e
  | [], v, rest, e, _, hv => by
    rw [List.nil_append]
    unfold validateTargets
    rw [hv]
  | u :: pre, v, rest, e, hpre, hv => by
    have ih := validateTargets_first_error K pre v rest e
      (fun w hw => hpre w (by simp [hw])) hv
    rw [List.cons_append]
    unfold validateTargets
    rw [hpre u (by simp), ih]

lemma validateTargets_error_of_mem (K : Nat) :
    ∀ (l : List Int) (v : Int), v ∈ l → (∃ e, checkTargetValue K v = Except.error e) →
    ∃ e2, validateTargets K l = Except.error e2
  | [], v, hv, _ => absurd hv (List.not_mem_nil v)
  | u :: rest, v, hv, he => by
    unfold validateTargets
    rcases hu : checkTargetValue K u with e | x
    · exact ⟨e, rfl⟩
    · cases x
      rcases List.mem_cons.mp hv with h | h
      · rcases he with ⟨e, he⟩
        rw [h, hu] at he
        cases he
      · exact validateTargets_error_of_mem K rest v h he

lemma validateTargets_error_kinds (K : Nat) :
    ∀ {l : List Int} {e : ErrKind}, validateTargets K l = Except.error e →
    e = ErrKind.NegativeLabel ∨ e = ErrKind.LabelOverflow ∨ e = ErrKind.LabelOutOfRange
  | [], e, h => by simp [validateTargets] at h
  | v :: rest, e, h => by
    unfold validateTargets at h
    rcases hv : checkTargetValue K v with e2 | x
    · rw [hv] at h
      cases h
      unfold checkTargetValue at hv
      split_ifs at hv <;> simp_all
    · rw [hv] at h
      cases x
      exact validateTargets_error_kinds K h

/-! Helper lemmas about the per-feature construction loop. -/

lemma constructInputDataLoop_error_live (env : Env) (cS : Nat) (data : List Int)
    (oid : Nat) (fas : List FeatureAtomic) :
    ∀ (acc : List (Nat × List Nat)) (base : List Nat) (n : Nat) (e : ErrKind) (h2 : Heap),
    constructInputDataLoop env cS data oid fas acc ⟨acc.map Prod.fst ++ oid :: base, n⟩ =
      (Except.error e, h2) → h2.live = base := by
  induction fas with
  | nil =>
    intro acc base n e h2 h
    simp [constructInputDataLoop] at h
  | cons fa rest ih =>
    intro acc base n e h2 h
    unfold constructInputDataLoop at h
    by_cases hA : env.allocOk n
    · simp only [Heap.alloc, hA, if_true] at h
      rcases hF : fillFeature fa.countBins (column data fa.indexFeatureAtomicData cS)
        with e2 | col
      · rw [hF] at h
        have hfree := freeAcc_append ((n, ([] : List Nat)) :: acc) (oid :: base) (n + 1)
        simp only [List.map_cons, List.cons_append] at hfree
        rw [hfree] at h
        simp only [Heap.free, List.erase_cons_head, Prod.mk.injEq] at h
        rw [← h.2]
      · rw [hF] at h
        exact ih ((n, col) :: acc) base (n + 1) e h2 h
    · simp only [Heap.alloc, hA, Bool.false_eq_true, if_false] at h
      rw [freeAcc_append acc (oid :: base) (n + 1)] at h
      simp only [Heap.free, List.erase_cons_head, Prod.mk.injEq] at h
      rw [← h.2]

lemma constructInputDataLoop_error_kinds (env : Env) (cS : Nat) (data : List Int)
    (oid : Nat) (fas : List FeatureAtomic) :
    ∀ (acc : List (Nat × List Nat)) (h : Heap) (e : ErrKind) (h2 : Heap),
    constructInputDataLoop env cS data oid fas acc h = (Except.error e, h2) →
    e = ErrKind.AllocationFailure ∨ e = ErrKind.NegativeBinIndex ∨
      e = ErrKind.BinIndexOverflow ∨ e = ErrKind.BinIndexOutOfRange := by
  induction fas with
  | nil =>
    intro acc h e h2 heq
    simp [constructInputDataLoop] at heq
  | cons fa rest ih =>
    intro acc h e h2 heq
    unfold constructInputDataLoop at heq
    by_cases hA : env.allocOk h.next
    · simp only [Heap.alloc, hA, if_true] at heq
      rcases hF : fillFeature fa.countBins (column data fa.indexFeatureAtomicData cS)
        with e2 | col
      · rw [hF] at heq
        simp only [Prod.mk.injEq, Except.error.injEq] at heq
        rcases fillFeature_error_kinds hF with h1 | h1 | h1 <;> simp [← heq.1, h1]
      · rw [hF] at heq
        exact ih ((h.next, col) :: acc) ⟨h.next :: h.live, h.next + 1⟩ e h2 heq
    · simp only [Heap.alloc, hA, Bool.false_eq_true, if_false, Prod.mk.injEq,
        Except.error.injEq] at heq
      simp [← heq.1]

lemma constructInputDataLoop_ok (env : Env) (cS : Nat) (data : List Int)
    (oid : Nat) (fas : List FeatureAtomic) :
    ∀ (acc : List (Nat × List Nat)) (base : List Nat) (n : Nat)
      (cols : List (Nat × List Nat)) (h2 : Heap),
    constructInputDataLoop env cS data oid fas acc ⟨acc.map Prod.fst ++ oid :: base, n⟩ =
      (Except.ok cols, h2) →
    h2.live = (cols.map Prod.fst).reverse ++ oid :: base ∧
      cols.map Prod.snd = (acc.map Prod.snd).reverse ++
        fas.map (fun fa => (column data fa.indexFeatureAtomicData cS).map Int.toNat) := by
  induction fas with
  | nil =>
    intro acc base n cols h2 h
    simp only [constructInputDataLoop, Prod.mk.injEq, Except.ok.injEq] at h
    rw [← h.1, ← h.2]
    constructor
    · simp [List.map_reverse]
    · simp [List.map_reverse]
  | cons fa rest ih =>
    intro acc base n cols h2 h
    unfold constructInputDataLoop at h
    by_cases hA : env.allocOk n
    · simp only [Heap.alloc, hA, if_true] at h
      rcases hF : fillFeature fa.countBins (column data fa.indexFeatureAtomicData cS)
        with e2 | col
      · rw [hF] at h
        simp at h
      · rw [hF] at h
        have hcol := fillFeature_ok_map hF
        have := ih ((n, col) :: acc) base (n + 1) cols h2 h
        refine ⟨this.1, ?_⟩
        rw [this.2]
        simp [hcol]
    · simp only [Heap.alloc, hA, Bool.false_eq_true, if_false] at h
      simp at h

lemma constructInputDataLoop_ok_of_valid (env : Env) (cS : Nat) (data : List Int)
    (oid : Nat) (hAll : ∀ k, env.allocOk k = true) :
    ∀ (fas : List FeatureAtomic),
    (∀ fa ∈ fas, fa.countBins ≤ 2 ^ sizeBits ∧
      ∀ v ∈ column data fa.indexFeatureAtomicData cS, 0 ≤ v ∧ v.toNat < fa.countBins) →
    ∀ (acc : List (Nat × List Nat)) (h : Heap),
    ∃ cols h2, constructInputDataLoop env cS data oid fas acc h = (Except.ok cols, h2) := by
  intro fas
  induction fas with
  | nil =>
    intro _ acc h
    exact ⟨acc.reverse, h, rfl⟩
  | cons fa rest ih =>
    intro hval acc h
    have hfa := hval fa (by simp)
    have hfill := fillFeature_ok_of_valid hfa.1 _ hfa.2
    unfold constructInputDataLoop
    simp only [Heap.alloc, hAll h.next, if_true]
    rw [hfill]
    exact ih (fun u hu => hval u (by simp [hu])) ((h.next, _) :: acc)
      ⟨h.next :: h.live, h.next + 1⟩

lemma constructInputDataLoop_first_error (env : Env) (cS : Nat) (data : List Int)
    (oid : Nat) (hAll : ∀ k, env.allocOk k = true) :
    ∀ (good : List FeatureAtomic) (fb : FeatureAtomic) (bad : List FeatureAtomic)
      (e : ErrKind) (acc : List (Nat × List Nat)) (h : Heap),
    (∀ fa ∈ good, fa.countBins ≤ 2 ^ sizeBits ∧
      ∀ v ∈ column data fa.indexFeatureAtomicData cS, 0 ≤ v ∧ v.toNat < fa.countBins) →
    fillFeature fb.countBins (column data fb.indexFeatureAtomicData cS) =
      Except.error e →
    ∃ h2, constructInputDataLoop env cS data oid (good ++ fb :: bad) acc h =
      (Except.error e, h2)
  | [], fb, bad, e, acc, h, _, hfb => by
    rw [List.nil_append]
    unfold constructInputDataLoop
    simp only [Heap.alloc, hAll h.next, if_true]
    rw [hfb]
    exact ⟨_, rfl⟩
  | fa :: good, fb, bad, e, acc, h, hgood, hfb => by
    have hfa := hgood fa (by simp)
    have hfill := fillFeature_ok_of_valid hfa.1 _ hfa.2
    rw [List.cons_append]
    unfold constructInputDataLoop
    simp only [Heap.alloc, hAll h.next, if_true]
    rw [hfill]
    exact constructInputDataLoop_first_error env cS data oid hAll good fb bad e
      ((h.next, _) :: acc) ⟨h.next :: h.live, h.next + 1⟩
      (fun u hu => hgood u (by simp [hu])) hfb

/-! Helper lemmas about ConstructInputData as a whole. -/

lemma constructInputData_error_live {env : Env} {cF : Nat} {fas : List FeatureAtomic}
    {cS : Nat} {data : List Int} {h : Heap} {e : ErrKind} {h2 : Heap}
    (heq : ConstructInputData env cF fas cS data h = (Except.error e, h2)) :
    h2.live = h.live := by
  unfold ConstructInputData at heq
  by_cases hA : env.allocOk h.next
  · simp only [Heap.alloc, hA, if_true] at heq
    rcases hL : constructInputDataLoop env cS data h.next (fas.take cF) []
        ⟨h.next :: h.live, h.next + 1⟩ with ⟨r, h3⟩
    rcases r with e2 | cols
    · rw [hL] at heq
      simp only [Prod.mk.injEq] at heq
      rw [← heq.2]
      exact constructInputDataLoop_error_live env cS data h.next (fas.take cF)
        [] h.live (h.next + 1) e2 h3 hL
    · rw [hL] at heq
      simp at heq
  · simp only [Heap.alloc, hA, Bool.false_eq_true, if_false, Prod.mk.injEq] at heq
    rw [← heq.2]

lemma constructInputData_error_kinds {env : Env} {cF : Nat} {fas : List FeatureAtomic}
    {cS : Nat} {data : List Int} {h : Heap} {e : ErrKind} {h2 : Heap}
    (heq : ConstructInputData env cF fas cS data h = (Except.error e, h2)) :
    e = ErrKind.AllocationFailure ∨ e = ErrKind.NegativeBinIndex ∨
      e = ErrKind.BinIndexOverflow ∨ e = ErrKind.BinIndexOutOfRange := by
  unfold ConstructInputData at heq
  by_cases hA : env.allocOk h.next
  · simp only [Heap.alloc, hA, if_true] at heq
    rcases hL : constructInputDataLoop env cS data h.next (fas.take cF) []
        ⟨h.next :: h.live, h.next + 1⟩ with ⟨r, h3⟩
    rcases r with e2 | cols
    · rw [hL] at heq
      simp only [Prod.mk.injEq, Except.error.injEq] at heq
      rw [← heq.1]
      exact constructInputDataLoop_error_kinds env cS data h.next (fas.take cF) [] _ e2 h3 hL
    · rw [hL] at heq
      simp at heq
  · simp only [Heap.alloc, hA, Bool.false_eq_true, if_false, Prod.mk.injEq,
      Except.error.injEq] at heq
    simp [← heq.1]

lemma constructInputData_ok {env : Env} {cF : Nat} {fas : List FeatureAtomic}
    {cS : Nat} {data : List Int} {h : Heap} {oid : Nat}
    {cols : List (Nat × List Nat)} {h2 : Heap}
    (heq : ConstructInputData env cF fas cS data h = (Except.ok (oid, cols), h2)) :
    h2.live = (cols.map Prod.fst).reverse ++ oid :: h.live ∧
      cols.map Prod.snd = (fas.take cF).map
        (fun fa => (column data fa.indexFeatureAtomicData cS).map Int.toNat) := by
  unfold ConstructInputData at heq
  by_cases hA : env.allocOk h.next
  · simp only [Heap.alloc, hA, if_true] at heq
    rcases hL : constructInputDataLoop env cS data h.next (fas.take cF) []
        ⟨h.next :: h.live, h.next + 1⟩ with ⟨r, h3⟩
    rcases r with e2 | cols2
    · rw [hL] at heq
      simp at heq
    · rw [hL] at heq
      simp only [Prod.mk.injEq, Except.ok.injEq] at heq
      obtain ⟨⟨hoid, hcols⟩, hh⟩ := heq
      have := constructInputDataLoop_ok env cS data h.next (fas.take cF)
        [] h.live (h.next + 1) cols2 h3 hL
      rw [← hh, ← hoid, ← hcols]
      simpa using this
  · simp only [Heap.alloc, hA, Bool.false_eq_true, if_false, Prod.mk.injEq] at heq
    simp at heq

lemma constructInputData_ok_of_valid {env : Env} {cF : Nat} {fas : List FeatureAtomic}
    {cS : Nat} {data : List Int} (h : Heap) (hAll : ∀ k, env.allocOk k = true)
    (hval : ∀ fa ∈ fas.take cF, fa.countBins ≤ 2 ^ sizeBits ∧
      ∀ v ∈ column data fa.indexFeatureAtomicData cS, 0 ≤ v ∧ v.toNat < fa.countBins) :
    ∃ r h2, ConstructInputData env cF fas cS data h = (Except.ok r, h2) := by
  unfold ConstructInputData
  simp only [Heap.alloc, hAll h.next, if_true]
  obtain ⟨cols, h2, hL⟩ := constructInputDataLoop_ok_of_valid env cS data h.next hAll
    (fas.take cF) hval [] ⟨h.next :: h.live, h.next + 1⟩
  rw [hL]
  exact ⟨(h.next, cols), h2, rfl⟩

lemma constructInputData_first_error {env : Env} {cF : Nat} {fas : List FeatureAtomic}
    {cS : Nat} {data : List Int} (h : Heap) (hAll : ∀ k, env.allocOk k = true)
    {good : List FeatureAtomic} {fb : FeatureAtomic} {bad : List FeatureAtomic}
    {e : ErrKind} (hsplit : fas.take cF = good ++ fb :: bad)
    (hgood : ∀ fa ∈ good, fa.countBins ≤ 2 ^ sizeBits ∧
      ∀ v ∈ column data fa.indexFeatureAtomicData cS, 0 ≤ v ∧ v.toNat < fa.countBins)
    (hfb : fillFeature fb.countBins (column data fb.indexFeatureAtomicData cS) =
      Except.error e) :
    ∃ h2, ConstructInputData env cF fas cS data h = (Except.error e, h2) := by
  unfold ConstructInputData
  simp only [Heap.alloc, hAll h.next, if_true]
  rw [hsplit]
  obtain ⟨h2, hL⟩ := constructInputDataLoop_first_error env cS data h.next hAll
    good fb bad e [] ⟨h.next :: h.live, h.next + 1⟩ hgood hfb
  rw [hL]
  exact ⟨h2, rfl⟩

/-! Helper lemmas about ConstructGradients. -/

lemma constructGradients_overflow {env : Env} {cS : Nat} {tgts : List Int}
    {scores : List Rat} {rt : Int} (h : Heap)
    (hov : isMultiplyError cS (getVectorLength rt) = true) :
    ConstructGradients env cS tgts scores rt h = (Except.error ErrKind.SizeOverflow, h) := by
  unfold ConstructGradients
  simp [hov]

lemma constructGradients_gradfail {env : Env} {cS : Nat} {tgts : List Int}
    {scores : List Rat} {rt : Int} (h : Heap)
    (hov : isMultiplyError cS (getVectorLength rt) = false)
    (hA : env.allocOk h.next = true)
    (hg : env.gradientFill rt cS tgts scores = none) :
    ConstructGradients env cS tgts scores rt h =
      (Except.error ErrKind.GradientInitFailed, ⟨h.live, h.next + 1⟩) := by
  unfold ConstructGradients
  simp only [hov, Bool.false_eq_true, if_false, Heap.alloc, hA, if_true, hg]
  simp [Heap.free]

lemma constructGradients_error_live {env : Env} {cS : Nat} {tgts : List Int}
    {scores : List Rat} {rt : Int} {h : Heap} {e : ErrKind} {h2 : Heap}
    (heq : ConstructGradients env cS tgts scores rt h = (Except.error e, h2)) :
    h2.live = h.live := by
  unfold ConstructGradients at heq
  by_cases hov : isMultiplyError cS (getVectorLength rt)
  · simp only [hov, if_true, Prod.mk.injEq] at heq
    rw [← heq.2]
  · simp only [hov, Bool.false_eq_true, if_false] at heq
    by_cases hA : env.allocOk h.next
    · simp only [Heap.alloc, hA, if_true] at heq
      rcases hg : env.gradientFill rt cS tgts scores with _ | grads
      · rw [hg] at heq
        simp only [Prod.mk.injEq] at heq
        rw [← heq.2]
        simp [Heap.free]
      · rw [hg] at heq
        simp at heq
    · simp only [Heap.alloc, hA, Bool.false_eq_true, if_false, Prod.mk.injEq] at heq
      rw [← heq.2]

lemma constructGradients_error_kinds {env : Env} {cS : Nat} {tgts : List Int}
    {scores : List Rat} {rt : Int} {h : Heap} {e : ErrKind} {h2 : Heap}
    (heq : ConstructGradients env cS tgts scores rt h = (Except.error e, h2)) :
    e = ErrKind.SizeOverflow ∨ e = ErrKind.AllocationFailure ∨
      e = ErrKind.GradientInitFailed := by
  unfold ConstructGradients at heq
  by_cases hov : isMultiplyError cS (getVectorLength rt)
  · simp only [hov, if_true, Prod.mk.injEq, Except.error.injEq] at heq
    simp [← heq.1]
  · simp only [hov, Bool.false_eq_true, if_false] at heq
    by_cases hA : env.allocOk h.next
    · simp only [Heap.alloc, hA, if_true] at heq
      rcases hg : env.gradientFill rt cS tgts scores with _ | grads
      · rw [hg] at heq
        simp only [Prod.mk.injEq, Except.error.injEq] at heq
        simp [← heq.1]
      · rw [hg] at heq
        simp at heq
    · simp only [Heap.alloc, hA, Bool.false_eq_true, if_false, Prod.mk.injEq,
        Except.error.injEq] at heq
      simp [← heq.1]

lemma constructGradients_ok {env : Env} {cS : Nat} {tgts : List Int}
    {scores : List Rat} {rt : Int} {h : Heap} {g : Nat × List Rat} {h2 : Heap}
    (heq : ConstructGradients env cS tgts scores rt h = (Except.ok g, h2)) :
    g.1 = h.next ∧ h2 = ⟨h.next :: h.live, h.next + 1⟩ ∧
      env.gradientFill rt cS tgts scores = some g.2 := by
  unfold ConstructGradients at heq
  by_cases hov : isMultiplyError cS (getVectorLength rt)
  · simp only [hov, if_true] at heq
    simp at heq
  · simp only [hov, Bool.false_eq_true, if_false] at heq
    by_cases hA : env.allocOk h.next
    · simp only [Heap.alloc, hA, if_true] at heq
      rcases hg : env.gradientFill rt cS tgts scores with _ | grads
      · rw [hg] at heq
        simp at heq
      · rw [hg] at heq
        simp only [Prod.mk.injEq, Except.ok.injEq] at heq
        obtain ⟨h1, hh⟩ := heq
        subst h1
        subst hh
        exact ⟨rfl, rfl, rfl⟩
    · simp only [Heap.alloc, hA, Bool.false_eq_true, if_false] at heq
      simp at heq

/-! Helper lemmas about Initialize. -/

lemma validation_step_ok {cS : Nat} {tgts : List Int} {rt : Int}
    (hval : isClassification rt = true →
      validateTargets rt.toNat (tgts.take cS) = Except.ok ()) :
    (if isClassification rt then validateTargets rt.toNat (tgts.take cS)
      else Except.ok ()) = Except.ok () := by
  by_cases hcls : isClassification rt
  · rw [if_pos hcls]
    exact hval hcls
  · rw [if_neg hcls]

lemma initialize_error_preserves {env : Env} {st : DataFrameInteraction} {cF : Nat}
    {fas : List FeatureAtomic} {cS : Nat} {data tgts : List Int} {scores : List Rat}
    {rt : Int} {h : Heap} {e : ErrKind} {st2 : DataFrameInteraction} {h2 : Heap}
    (heq : DataFrameInteraction.Initialize env st cF fas cS data tgts scores rt h =
      (Except.error e, st2, h2)) : st2 = st ∧ h2.live = h.live := by
  unfold DataFrameInteraction.Initialize at heq
  by_cases hS : cS ≠ 0
  · rw [if_pos hS] at heq
    rcases hV : (if isClassification rt then
        validateTargets rt.toNat (tgts.take cS) else Except.ok ()) with e2 | u
    · rw [hV] at heq
      simp only [Prod.mk.injEq] at heq
      refine ⟨heq.2.1.symm, ?_⟩
      rw [← heq.2.2]
    · rw [hV] at heq
      rcases hG : ConstructGradients env cS tgts scores rt h with ⟨rG, h1⟩
      rw [hG] at heq
      rcases rG with e2 | g
      · simp only [Prod.mk.injEq] at heq
        refine ⟨heq.2.1.symm, ?_⟩
        rw [← heq.2.2]
        exact constructGradients_error_live hG
      · simp only [] at heq
        by_cases hC : cF ≠ 0
        · rw [if_pos hC] at heq
          rcases hI : ConstructInputData env cF fas cS data h1 with ⟨rI, h3⟩
          rw [hI] at heq
          rcases rI with e2 | inp
          · simp only [Prod.mk.injEq] at heq
            obtain ⟨hg1, hh1, _⟩ := constructGradients_ok hG
            refine ⟨heq.2.1.symm, ?_⟩
            rw [← heq.2.2]
            have h3live : h3.live = h1.live := constructInputData_error_live hI
            simp only [Heap.free, h3live, hh1, hg1, List.erase_cons_head]
          · simp at heq
        · rw [if_neg hC] at heq
          simp at heq
  · rw [if_neg hS] at heq
    simp at heq

lemma initialize_validation_error {env : Env} {st : DataFrameInteraction} {cF : Nat}
    {fas : List FeatureAtomic} {cS : Nat} {data tgts : List Int} {scores : List Rat}
    {rt : Int} {h : Heap} {e : ErrKind}
    (hS : cS ≠ 0) (hcls : isClassification rt = true)
    (hV : validateTargets rt.toNat (tgts.take cS) = Except.error e) :
    DataFrameInteraction.Initialize env st cF fas cS data tgts scores rt h =
      (Except.error e, st, h) := by
  unfold DataFrameInteraction.Initialize
  rw [if_pos hS, if_pos hcls, hV]

lemma initialize_overflow {env : Env} {st : DataFrameInteraction} {cF : Nat}
    {fas : List FeatureAtomic} {cS : Nat} {data tgts : List Int} {scores : List Rat}
    {rt : Int} {h : Heap}
    (hS : cS ≠ 0)
    (hval : isClassification rt = true →
      validateTargets rt.toNat (tgts.take cS) = Except.ok ())
    (hov : isMultiplyError cS (getVectorLength rt) = true) :
    DataFrameInteraction.Initialize env st cF fas cS data tgts scores rt h =
      (Except.error ErrKind.SizeOverflow, st, h) := by
  unfold DataFrameInteraction.Initialize
  rw [if_pos hS, validation_step_ok hval, constructGradients_overflow h hov]

lemma initialize_gradfail {env : Env} {st : DataFrameInteraction} {cF : Nat}
    {fas : List FeatureAtomic} {cS : Nat} {data tgts : List Int} {scores : List Rat}
    {rt : Int} {h : Heap}
    (hS : cS ≠ 0)
    (hval : isClassification rt = true →
      validateTargets rt.toNat (tgts.take cS) = Except.ok ())
    (hov : isMultiplyError cS (getVectorLength rt) = false)
    (hA : env.allocOk h.next = true)
    (hg : env.gradientFill rt cS tgts scores = none) :
    DataFrameInteraction.Initialize env st cF fas cS data tgts scores rt h =
      (Except.error ErrKind.GradientInitFailed, st, ⟨h.live, h.next + 1⟩) := by
  unfold DataFrameInteraction.Initialize
  rw [if_pos hS, validation_step_ok hval, constructGradients_gradfail h hov hA hg]

lemma initialize_error_kinds_of_regression {env : Env} {st : DataFrameInteraction}
    {cF : Nat} {fas : List FeatureAtomic} {cS : Nat} {data tgts : List Int}
    {scores : List Rat} {rt : Int} {h : Heap} {e : ErrKind}
    {st2 : DataFrameInteraction} {h2 : Heap}
    (hS : cS ≠ 0) (hcls : isClassification rt = false)
    (heq : DataFrameInteraction.Initialize env st cF fas cS data tgts scores rt h =
      (Except.error e, st2, h2)) :
    e = ErrKind.SizeOverflow ∨ e = ErrKind.AllocationFailure ∨
      e = ErrKind.GradientInitFailed ∨ e = ErrKind.NegativeBinIndex ∨
      e = ErrKind.BinIndexOverflow ∨ e = ErrKind.BinIndexOutOfRange := by
  unfold DataFrameInteraction.Initialize at heq
  rw [if_pos hS, hcls] at heq
  simp only [Bool.false_eq_true, if_false] at heq
  rcases hG : ConstructGradients env cS tgts scores rt h with ⟨rG, h1⟩
  rw [hG] at heq
  rcases rG with e2 | g
  · simp only [Prod.mk.injEq, Except.error.injEq] at heq
    rcases constructGradients_error_kinds hG with h1 | h1 | h1 <;> simp [← heq.1, h1]
  · simp only [] at heq
    by_cases hC : cF ≠ 0
    · rw [if_pos hC] at heq
      rcases hI : ConstructInputData env cF fas cS data h1 with ⟨rI, h3⟩
      rw [hI] at heq
      rcases rI with e2 | inp
      · simp only [Prod.mk.injEq, Except.error.injEq] at heq
        rcases constructInputData_error_kinds hI with h1 | h1 | h1 | h1 <;>
          simp [← heq.1, h1]
      · simp at heq
    · rw [if_neg hC] at heq
      simp at heq

lemma initialize_ok_commit {env : Env} {st : DataFrameInteraction} {cF : Nat}
    {fas : List FeatureAtomic} {cS : Nat} {data tgts : List Int} {scores : List Rat}
    {rt : Int} {h : Heap} {st2 : DataFrameInteraction} {h2 : Heap}
    (hS : cS ≠ 0) (hC : cF ≠ 0)
    (heq : DataFrameInteraction.Initialize env st cF fas cS data tgts scores rt h =
      (Except.ok (), st2, h2)) :
    ∃ g oid cols, st2 = ⟨some g, some (oid, cols), cS, cF⟩ ∧
      env.gradientFill rt cS tgts scores = some g.2 ∧
      cols.map Prod.snd = (fas.take cF).map
        (fun fa => (column data fa.indexFeatureAtomicData cS).map Int.toNat) := by
  unfold DataFrameInteraction.Initialize at heq
  rw [if_pos hS] at heq
  rcases hV : (if isClassification rt then
      validateTargets rt.toNat (tgts.take cS) else Except.ok ()) with e2 | u
  · rw [hV] at heq
    simp at heq
  · rw [hV] at heq
    rcases hG : ConstructGradients env cS tgts scores rt h with ⟨rG, h1⟩
    rw [hG] at heq
    rcases rG with e2 | g
    · simp at heq
    · simp only [] at heq
      rw [if_pos hC] at heq
      rcases hI : ConstructInputData env cF fas cS data h1 with ⟨rI, h3⟩
      rw [hI] at heq
      rcases rI with e2 | inp
      · simp at heq
      · rcases inp with ⟨oid, cols⟩
        simp only [Prod.mk.injEq] at heq
        obtain ⟨_, hst, _⟩ := heq
        obtain ⟨_, _, hfill⟩ := constructGradients_ok hG
        refine ⟨g, oid, cols, hst.symm, hfill, (constructInputData_ok hI).2⟩

lemma column_getD (off cS i : Nat) (data : List Int) (hi : i < cS)
    (hlen : off * cS + i < data.length) :
    (column data off cS).getD i 0 = data.getD (off * cS + i) 0 := by
  unfold column
  have h1 : i < ((data.drop (off * cS)).take cS).length := by
    simp [List.length_take, List.length_drop]
    omega
  rw [List.getD_eq_getElem _ _ h1, List.getD_eq_getElem _ _ hlen]
  rw [List.getElem_take]
  rw [List.getElem_drop]

/-- Claim C1: failure atomicity of Initialize — for every input with a
positive sample count, if Initialize fails at any phase (target
validation, gradient construction, or binned-input construction) the
object is left exactly as it started (gradient and input buffers still
unset, sample count and feature count not updated) and the set of live
heap allocations is unchanged, so no partially-populated state is ever
observable. -/
theorem initialize_failure_atomicity (env : Env) (st : DataFrameInteraction)
    (cF : Nat) (fas : List FeatureAtomic) (cS : Nat) (data tgts : List Int)
    (scores : List Rat) (rt : Int) (h : Heap) (e : ErrKind)
    (st2 : DataFrameInteraction) (h2 : Heap) (hS : 0 < cS)
    (heq : DataFrameInteraction.Initialize env st cF fas cS data tgts scores rt h =
      (Except.error e, st2, h2)) :
    st2 = st ∧ h2.live = h.live :=
  initialize_error_preserves heq

/-- Witness for C1 at a concrete failing input (regression frame whose
external gradient routine fails). -/
theorem initialize_failure_atomicity_witness :
    emptyFrame = emptyFrame ∧ Heap.live ⟨[], 1⟩ = Heap.live ⟨[], 0⟩ :=
  initialize_failure_atomicity envNoGrad emptyFrame 0 [] 1 [] [] [] (-1) ⟨[], 0⟩
    ErrKind.GradientInitFailed emptyFrame ⟨[], 1⟩ (by decide) (by rfl)

/-- Claim C2: rollback in the binned-input builder — on every failing
run of ConstructInputData the live allocations of the heap are exactly
restored (every inner feature buffer allocated so far, the in-progress
one included, plus the outer pointer array is released), and on every
successful run the live allocations are exactly the returned buffers on
top of the initial heap, so no allocation is leaked on any exit path. -/
theorem construct_input_data_rollback (env : Env) (cF : Nat)
    (fas : List FeatureAtomic) (cS : Nat) (data : List Int) (h : Heap) :
    (∀ e h2, ConstructInputData env cF fas cS data h = (Except.error e, h2) →
      h2.live = h.live) ∧
    (∀ oid cols h2,
      ConstructInputData env cF fas cS data h = (Except.ok (oid, cols), h2) →
      h2.live = (cols.map Prod.fst).reverse ++ oid :: h.live) :=
  ⟨fun _ _ heq => constructInputData_error_live heq,
   fun _ _ _ heq => (constructInputData_ok heq).1⟩

/-- Witness for C2 at a concrete failing input (one feature with bin
count 2 and raw value 5). -/
theorem construct_input_data_rollback_witness :
    Heap.live ⟨[], 2⟩ = Heap.live ⟨[], 0⟩ :=
  (construct_input_data_rollback envAll 1 [⟨0, 2⟩] 1 [5] ⟨[], 0⟩).1
    ErrKind.BinIndexOutOfRange ⟨[], 2⟩ (by rfl)

/-- Claim C3: the bin-index boundary is inclusive-exclusive — a raw
value equal to bin_count - 1 passes the per-value check and, with all
other values valid and allocations succeeding, construction succeeds,
while a raw value equal to bin_count fails the check with
BinIndexOutOfRange and makes construction fail with that error; the
accepted range is exactly the interval from 0 inclusive to bin_count
exclusive. -/
theorem bin_index_boundary :
    (∀ c : Nat, 0 < c → c ≤ 2 ^ sizeBits →
      checkBinValue c ((c : Int) - 1) = Except.ok (c - 1)) ∧
    (∀ c : Nat, c < 2 ^ sizeBits →
      checkBinValue c ((c : Int)) = Except.error ErrKind.BinIndexOutOfRange) ∧
    (∀ c : Nat, c ≤ 2 ^ sizeBits → ∀ v : Int,
      (∃ n, checkBinValue c v = Except.ok n) ↔ 0 ≤ v ∧ v.toNat < c) ∧
    (∀ env cF fas cS data h, (∀ k, Env.allocOk env k = true) →
      (∀ fa, fa ∈ List.take cF fas → fa.countBins ≤ 2 ^ sizeBits ∧
        ∀ v ∈ column data fa.indexFeatureAtomicData cS, 0 ≤ v ∧ v.toNat < fa.countBins) →
      ∃ r h2, ConstructInputData env cF fas cS data h = (Except.ok r, h2)) ∧
    (∀ env cF fas cS data h good fb bad, (∀ k, Env.allocOk env k = true) →
      List.take cF fas = good ++ fb :: bad →
      (∀ fa ∈ good, fa.countBins ≤ 2 ^ sizeBits ∧
        ∀ v ∈ column data fa.indexFeatureAtomicData cS, 0 ≤ v ∧ v.toNat < fa.countBins) →
      FeatureAtomic.countBins fb < 2 ^ sizeBits →
      (∃ pre rest, column data fb.indexFeatureAtomicData cS =
          pre ++ (fb.countBins : Int) :: rest ∧
        ∀ v ∈ pre, 0 ≤ v ∧ v.toNat < fb.countBins) →
      ∃ h2, ConstructInputData env cF fas cS data h =
        (Except.error ErrKind.BinIndexOutOfRange, h2)) := by
  refine ⟨?_, ?_, ?_, ?_, ?_⟩
  · intro c h0 hc
    have e0 : (0 : Int) ≤ (c : Int) - 1 := by omega
    have e1 : ((c : Int) - 1).toNat < c := by omega
    have e2 := checkBinValue_ok c ((c : Int) - 1) e0 e1 hc
    rw [show ((c : Int) - 1).toNat = c - 1 by omega] at e2
    exact e2
  · intro c hc
    exact checkBinValue_at_countBins c hc
  · intro c hc v
    constructor
    · rintro ⟨n, hn⟩
      have := checkBinValue_ok_inv hn
      exact ⟨this.1, this.2.2⟩
    · rintro ⟨h0, h1⟩
      exact ⟨v.toNat, checkBinValue_ok c v h0 h1 hc⟩
  · intro env cF fas cS data h hAll hval
    exact constructInputData_ok_of_valid h hAll hval
  · intro env cF fas cS data h good fb bad hAll hsplit hgood hfb hex
    obtain ⟨pre, rest, hcol, hpre⟩ := hex
    have hfill : fillFeature fb.countBins (column data fb.indexFeatureAtomicData cS) =
        Except.error ErrKind.BinIndexOutOfRange := by
      rw [hcol]
      exact fillFeature_first_error (le_of_lt hfb) pre ((fb.countBins : Int)) rest _
        hpre (checkBinValue_at_countBins fb.countBins hfb)
    exact constructInputData_first_error h hAll hsplit hgood hfill

/-- Witness for C3 at the concrete boundary value bin_count - 1 with
bin_count 2. -/
theorem bin_index_boundary_witness :
    checkBinValue 2 ((2 : Int) - 1) = Except.ok (2 - 1) :=
  bin_index_boundary.1 2 (by decide) (by decide)

/-- Claim C4: classification target validation — each target element is
checked in order for negativity, storage-type representability,
index-type representability and the class-count bound, with the
corresponding error kinds, failing fast on the first violating element;
in particular any classification input containing a target value at
least K makes Initialize fail while leaving the object and the heap
untouched. -/
theorem classification_target_validation :
    (∀ (K : Nat) (v : Int), v < 0 →
      checkTargetValue K v = Except.error ErrKind.NegativeLabel) ∧
    (∀ (K : Nat) (v : Int), 0 ≤ v → (2 : Int) ^ sizeBits ≤ v →
      checkTargetValue K v = Except.error ErrKind.LabelOverflow) ∧
    (∀ (K : Nat) (v : Int), 0 ≤ v → v < 2 ^ sizeBits → K ≤ v.toNat →
      checkTargetValue K v = Except.error ErrKind.LabelOutOfRange) ∧
    (∀ (K : Nat) (v : Int),
      checkTargetValue K v = Except.ok () ↔ 0 ≤ v ∧ v < 2 ^ sizeBits ∧ v.toNat < K) ∧
    (∀ (K : Nat) (pre : List Int) (v : Int) (rest : List Int) (e : ErrKind),
      (∀ u ∈ pre, checkTargetValue K u = Except.ok ()) →
      checkTargetValue K v = Except.error e →
      validateTargets K (pre ++ v :: rest) = Except.error e) ∧
    (∀ env st cF fas cS data tgts scores rt h, cS ≠ 0 → isClassification rt = true →
      (∃ v ∈ List.take cS tgts, (rt.toNat : Int) ≤ v) →
      ∃ e, DataFrameInteraction.Initialize env st cF fas cS data tgts scores rt h =
        (Except.error e, st, h)) := by
  refine ⟨checkTargetValue_neg, checkTargetValue_overflow, checkTargetValue_range,
    checkTargetValue_ok_iff, validateTargets_first_error, ?_⟩
  intro env st cF fas cS data tgts scores rt h hS hcls hex
  obtain ⟨v, hvmem, hge⟩ := hex
  obtain ⟨e2, he2⟩ := validateTargets_error_of_mem rt.toNat (List.take cS tgts) v hvmem
    (checkTargetValue_error_of_ge rt.toNat v hge)
  exact ⟨e2, initialize_validation_error hS hcls he2⟩

/-- Witness for C4 at a concrete classification input with K = 2 and a
target value 5 that is at least K. -/
theorem classification_target_validation_witness :
    ∃ e, DataFrameInteraction.Initialize envAll emptyFrame 0 [] 1 [] [5] [] 2 ⟨[], 0⟩ =
      (Except.error e, emptyFrame, ⟨[], 0⟩) :=
  classification_target_validation.2.2.2.2.2 envAll emptyFrame 0 [] 1 [] [5] [] 2
    ⟨[], 0⟩ (by decide) (by decide) ⟨5, by decide, by decide⟩

/-- Claim C5: committed binned-column content — whenever Initialize
succeeds with positive sample and feature counts, the committed state
holds the gradient buffer produced by the delegated routine and one
column per feature whose stored values are exactly the raw source
values of the block of that feature, narrowed without change of value (the
column abstraction indexes the flat source at offset times sample count
plus the sample index); the concrete scenario with three samples, two
features with bin counts 2 and 3, raw data 0,1,1,2,0,2 and binary
classification commits columns 0,1,1 and 2,0,2 and a three-element
gradient buffer. -/
theorem committed_binned_content :
    (∀ env st cF fas cS data tgts scores rt h st2 h2, cS ≠ 0 → cF ≠ 0 →
      DataFrameInteraction.Initialize env st cF fas cS data tgts scores rt h =
        (Except.ok (), st2, h2) →
      ∃ g oid cols, st2 = ⟨some g, some (oid, cols), cS, cF⟩ ∧
        Env.gradientFill env rt cS tgts scores = some g.2 ∧
        cols.map Prod.snd = (List.take cF fas).map
          (fun fa => (column data fa.indexFeatureAtomicData cS).map Int.toNat)) ∧
    (∀ (off cS i : Nat) (data : List Int), i < cS → off * cS + i < data.length →
      (column data off cS).getD i 0 = data.getD (off * cS + i) 0) ∧
    ( DataFrameInteraction.Initialize envAll emptyFrame 2 [⟨0, 2⟩, ⟨1, 3⟩] 3
        [0, 1, 1, 2, 0, 2] [0, 1, 0] [0, 0, 0] 2 ⟨[], 0⟩ =
      (Except.ok (),
        ⟨some (0, [0, 0, 0]), some (1, [(2, [0, 1, 1]), (3, [2, 0, 2])]), 3, 2⟩,
        ⟨[3, 2, 1, 0], 4⟩)) := by
  refine ⟨?_, ?_, by rfl⟩
  · intro env st cF fas cS data tgts scores rt h st2 h2 hS hC heq
    exact initialize_ok_commit hS hC heq
  · intro off cS i data hi hlen
    exact column_getD off cS i data hi hlen

/-- Witness for C5 applying the commit characterization to the concrete
scenario. -/
theorem committed_binned_content_witness :
    ∃ g oid cols,
      (⟨some (0, [0, 0, 0]), some (1, [(2, [0, 1, 1]), (3, [2, 0, 2])]), 3, 2⟩
        : DataFrameInteraction) = ⟨some g, some (oid, cols), 3, 2⟩ ∧
      Env.gradientFill envAll 2 3 [0, 1, 0] [0, 0, 0] = some g.2 ∧
      cols.map Prod.snd = (List.take 2 [⟨0, 2⟩, ⟨1, 3⟩] : List FeatureAtomic).map
        (fun fa => (column [0, 1, 1, 2, 0, 2] fa.indexFeatureAtomicData 3).map Int.toNat) :=
  committed_binned_content.1 envAll emptyFrame 2 [⟨0, 2⟩, ⟨1, 3⟩] 3 [0, 1, 1, 2, 0, 2]
    [0, 1, 0] [0, 0, 0] 2 ⟨[], 0⟩ _ ⟨[3, 2, 1, 0], 4⟩ (by decide) (by decide) (by rfl)

/-- Counterexample to C6 as stated: an input whose element count
overflows the index type but whose first target is negative fails in
the earlier target-validation phase with NegativeLabel, not with
SizeOverflow. -/
theorem size_overflow_counterexample :
    isMultiplyError 4 (getVectorLength (2 ^ 62)) = true ∧
    DataFrameInteraction.Initialize envAll emptyFrame 0 [] 4 [] [-1, -1, -1, -1] []
        (2 ^ 62) ⟨[], 0⟩ =
      (Except.error ErrKind.NegativeLabel, emptyFrame, ⟨[], 0⟩) ∧
    ErrKind.NegativeLabel ≠ ErrKind.SizeOverflow :=
  ⟨by decide, by rfl, by decide⟩

/-- Claim C6 (amended): for every input with a positive sample count
that passes target validation (regression, or all labels valid), if the
product of sample count and vector length overflows the index type then
Initialize fails with SizeOverflow and the gradient builder returns the
heap completely untouched — no allocation is performed. -/
theorem size_overflow_before_allocation (env : Env) (st : DataFrameInteraction)
    (cF : Nat) (fas : List FeatureAtomic) (cS : Nat) (data tgts : List Int)
    (scores : List Rat) (rt : Int) (h : Heap) (hS : 0 < cS)
    (hval : isClassification rt = true →
      validateTargets rt.toNat (tgts.take cS) = Except.ok ())
    (hov : isMultiplyError cS (getVectorLength rt) = true) :
    DataFrameInteraction.Initialize env st cF fas cS data tgts scores rt h =
      (Except.error ErrKind.SizeOverflow, st, h) ∧
    ConstructGradients env cS tgts scores rt h = (Except.error ErrKind.SizeOverflow, h) :=
  ⟨initialize_overflow (by omega) hval hov, constructGradients_overflow h hov⟩

/-- Witness for the amended C6 at a concrete overflowing input with
valid classification targets. -/
theorem size_overflow_before_allocation_witness :
    DataFrameInteraction.Initialize envAll emptyFrame 0 [] 4 [] [0, 0, 0, 0] []
        (2 ^ 62) ⟨[], 0⟩ = (Except.error ErrKind.SizeOverflow, emptyFrame, ⟨[], 0⟩) ∧
    ConstructGradients envAll 4 [0, 0, 0, 0] [] (2 ^ 62) ⟨[], 0⟩ =
      (Except.error ErrKind.SizeOverflow, ⟨[], 0⟩) :=
  size_overflow_before_allocation envAll emptyFrame 0 [] 4 [] [0, 0, 0, 0] []
    (2 ^ 62) ⟨[], 0⟩ (by decide) (fun _ => by decide) (by decide)

/-- Claim C7: empty-frame construction — with a sample count of zero,
Initialize succeeds on every input, stores no buffers, records the
feature count, and Destruct on the resulting never-populated object
leaves the heap unchanged. -/
theorem empty_frame_construction (env : Env) (cF : Nat) (fas : List FeatureAtomic)
    (data tgts : List Int) (scores : List Rat) (rt : Int) (h : Heap) :
    DataFrameInteraction.Initialize env emptyFrame cF fas 0 data tgts scores rt h =
      (Except.ok (), ⟨none, none, 0, cF⟩, h) ∧
    (∀ h2 : Heap, DataFrameInteraction.Destruct ⟨none, none, 0, cF⟩ h2 = h2) :=
  ⟨rfl, fun _ => rfl⟩

/-- Claim C8: regression skips target validation — for every input with
a positive sample count whose target descriptor denotes regression, a
failing Initialize never reports any of the three label-validation
error kinds, whatever the target data contains. -/
theorem regression_skips_target_validation (env : Env) (st : DataFrameInteraction)
    (cF : Nat) (fas : List FeatureAtomic) (cS : Nat) (data tgts : List Int)
    (scores : List Rat) (rt : Int) (h : Heap) (e : ErrKind)
    (st2 : DataFrameInteraction) (h2 : Heap)
    (hS : 0 < cS) (hreg : isClassification rt = false)
    (heq : DataFrameInteraction.Initialize env st cF fas cS data tgts scores rt h =
      (Except.error e, st2, h2)) :
    e ≠ ErrKind.NegativeLabel ∧ e ≠ ErrKind.LabelOverflow ∧
      e ≠ ErrKind.LabelOutOfRange := by
  have hk := initialize_error_kinds_of_regression (by omega) hreg heq
  rcases hk with h1 | h1 | h1 | h1 | h1 | h1 <;> simp [h1]

/-- Witness for C8 at a concrete regression input with a negative
target value. -/
theorem regression_skips_target_validation_witness :
    ErrKind.GradientInitFailed ≠ ErrKind.NegativeLabel ∧
    ErrKind.GradientInitFailed ≠ ErrKind.LabelOverflow ∧
    ErrKind.GradientInitFailed ≠ ErrKind.LabelOutOfRange :=
  regression_skips_target_validation envNoGrad emptyFrame 0 [] 1 [] [-5] [] (-1)
    ⟨[], 0⟩ ErrKind.GradientInitFailed emptyFrame ⟨[], 1⟩ (by decide) (by decide) (by rfl)

/-- Claim C9: gradient-initialization failure is contained — when the
external routine reports failure after the gradient buffer was
successfully allocated, the buffer is freed before GradientInitFailed
is propagated (the live heap is exactly restored) and Initialize
returns failure with nothing committed to the object. -/
theorem gradient_init_failure_contained (env : Env) (st : DataFrameInteraction)
    (cF : Nat) (fas : List FeatureAtomic) (cS : Nat) (data tgts : List Int)
    (scores : List Rat) (rt : Int) (h : Heap) (hS : 0 < cS)
    (hval : isClassification rt = true →
      validateTargets rt.toNat (tgts.take cS) = Except.ok ())
    (hov : isMultiplyError cS (getVectorLength rt) = false)
    (hA : Env.allocOk env h.next = true)
    (hg : Env.gradientFill env rt cS tgts scores = none) :
    ConstructGradients env cS tgts scores rt h =
      (Except.error ErrKind.GradientInitFailed, ⟨h.live, h.next + 1⟩) ∧
    DataFrameInteraction.Initialize env st cF fas cS data tgts scores rt h =
      (Except.error ErrKind.GradientInitFailed, st, ⟨h.live, h.next + 1⟩) :=
  ⟨constructGradients_gradfail h hov hA hg,
   initialize_gradfail (by omega) hval hov hA hg⟩

/-- Witness for C9 at a concrete input whose gradient routine fails. -/
theorem gradient_init_failure_contained_witness :
    ConstructGradients envNoGrad 1 [] [] (-1) ⟨[], 0⟩ =
      (Except.error ErrKind.GradientInitFailed, ⟨[], 1⟩) ∧
    DataFrameInteraction.Initialize envNoGrad emptyFrame 0 [] 1 [] [] [] (-1) ⟨[], 0⟩ =
      (Except.error ErrKind.GradientInitFailed, emptyFrame, ⟨[], 1⟩) :=
  gradient_init_failure_contained envNoGrad emptyFrame 0 [] 1 [] [] [] (-1) ⟨[], 0⟩
    (by decide) (fun _ => rfl) (by decide) (by decide) (by rfl)

/-- Claim C10: when the sample count is zero Initialize performs no
validation at all — it succeeds and records the feature count for every
input, including data that would fail validation with a positive sample
count, as the concrete contrast with identical malformed data shows. -/
theorem zero_samples_skip_validation :
    (∀ env st cF fas data tgts scores rt h,
      DataFrameInteraction.Initialize env st cF fas 0 data tgts scores rt h =
        (Except.ok (), ⟨st.m_aGradients, st.m_aaInputData, st.m_cSamples, cF⟩, h)) ∧
    ( DataFrameInteraction.Initialize envAll emptyFrame 1 [⟨0, 2⟩] 0 [5] [-7] [] 2
        ⟨[], 0⟩ = (Except.ok (), ⟨none, none, 0, 1⟩, ⟨[], 0⟩)) ∧
    (( DataFrameInteraction.Initialize envAll emptyFrame 1 [⟨0, 2⟩] 1 [5] [-7] [] 2
        ⟨[], 0⟩).1 = Except.error ErrKind.NegativeLabel) :=
  ⟨fun _ _ _ _ _ _ _ _ _ => rfl, rfl, rfl⟩

end EbmNative
